import Mathlib

/-!
Shallow embedding of the `MapToVmfConverter` class of `map2vmf.py`:
the `.map` parser (`parse_map_file`) and the `.vmf` serializer
(`generate_vmf`), together with proofs about them.

Strings are modelled as Lean `String`s; the Python regexes used by the
parser (`re.match` with the face, property and marker patterns) are
modelled as deterministic matchers on `List Char`, faithful to the
leftmost-greedy semantics of the concrete patterns.  The one runtime
failure point of the Python code (`current_brush['faces'].append` when
`current_brush` is `None`) is modelled with `Except Unit`.
-/

namespace Map2Vmf

/-- ASCII whitespace, as stripped by Python's `str.strip()` and matched
by the regex class `\s` (restricted to the ASCII range). -/
def isPySpace (c : Char) : Bool :=
  c == ' ' || c == '\t' || c == '\n' || c == '\r' ||
  c == Char.ofNat 11 || c == Char.ofNat 12

/-- `str.strip()` on a character list. -/
def pyStripList (cs : List Char) : List Char :=
  ((cs.dropWhile isPySpace).reverse.dropWhile isPySpace).reverse

/-- `str.strip()`. -/
def pyStrip (s : String) : String := String.mk (pyStripList s.data)

/-- Character-list version of `str.startswith`. -/
def listStarts : List Char → List Char → Bool
  | [], _ => true
  | _ :: _, [] => false
  | p :: ps, c :: cs => p == c && listStarts ps cs

/-- `str.startswith(pre)`. -/
def pyStartsWith (pre s : String) : Bool := listStarts pre.data s.data

/-- `map_content.split('\n')`, accumulator form. -/
def splitNlAux (cur : List Char) : List Char → List (List Char)
  | [] => [cur.reverse]
  | c :: cs =>
      if c = '\n' then cur.reverse :: splitNlAux [] cs
      else splitNlAux (c :: cur) cs

/-- `map_content.split('\n')`. -/
def splitLines (s : String) : List String :=
  (splitNlAux [] s.data).map String.mk

/-- Python `dict` assignment `d[k] = v` on an insertion-ordered
association list: an existing key keeps its position and gets the new
value, a new key is appended at the end. -/
def upsert (m : List (String × String)) (k v : String) :
    List (String × String) :=
  match m with
  | [] => [(k, v)]
  | (k', v') :: rest =>
      if k' = k then (k, v) :: rest else (k', v') :: upsert rest k v

/-- Decimal value of a digit string, as computed by Python `int()`. -/
def natOfDigits (ds : List Char) : Nat :=
  ds.foldl (fun a c => a * 10 + (c.toNat - 48)) 0

/-- The nine capture groups of the face regex, before the sentinel
substitution (the Python variable `original_material`). -/
structure RawFace where
  p1 : String
  p2 : String
  p3 : String
  material : String
  uaxis : String
  vaxis : String
  rotation : Nat
  scale_x : Nat
  scale_y : Nat
deriving Repr, DecidableEq

/-- One face dictionary, as stored in `current_brush['faces']`. -/
structure Face where
  p1 : String
  p2 : String
  p3 : String
  material : String
  uaxis : String
  vaxis : String
  rotation : Nat
  scale_x : Nat
  scale_y : Nat
deriving Repr, DecidableEq

/-- One brush dictionary `{'faces': [...]}`. -/
structure Brush where
  faces : List Face
deriving Repr, DecidableEq

/-- The persistent fields of a `MapToVmfConverter` instance. -/
structure Converter where
  worldspawn_properties : List (String × String)
  brushes : List Brush
  default_texture : String
deriving Repr, DecidableEq

/-- `MapToVmfConverter.__init__`. -/
def mkConverter (default_texture : String) : Converter :=
  { worldspawn_properties := [], brushes := [],
    default_texture := default_texture }

/-- The statistics dictionary returned by `parse_map_file`. -/
structure Stats where
  brushes_found : Nat
  brushes_processed : Nat
  faces_processed : Nat
  material_replacements : Nat
deriving Repr, DecidableEq

/-- The full state of the `parse_map_file` loop: the converter's
persistent fields plus the local variables of the loop. -/
structure PState where
  props : List (String × String)
  brushes : List Brush
  in_worldspawn : Bool
  in_brush : Bool
  current_brush : Option Brush
  brace_depth : Int
  pending_brush : Bool
  brush_count : Nat
  face_count : Nat
  material_replacements : Nat
deriving Repr, DecidableEq

/-- `re.match(r'"([^"]+)"\s+"([^"]*)"', line)`: leading quote, nonempty
key up to the next quote, at least one whitespace, quote, possibly
empty value up to the next quote, closing quote.  Trailing text is
ignored (`re.match` anchors only the start). -/
def propRegex (cs : List Char) : Option (String × String) :=
  match cs with
  | c0 :: rest =>
      if c0 = '"' then
        let k := rest.takeWhile (fun c => c != '"')
        if k.isEmpty then none
        else
          match rest.dropWhile (fun c => c != '"') with
          | c1 :: r2 =>
              if c1 = '"' then
                match r2 with
                | c2 :: _ =>
                    if isPySpace c2 then
                      match r2.dropWhile isPySpace with
                      | c3 :: r4 =>
                          if c3 = '"' then
                            let v := r4.takeWhile (fun c => c != '"')
                            match r4.dropWhile (fun c => c != '"') with
                            | c4 :: _ =>
                                if c4 = '"' then
                                  some (String.mk k, String.mk v)
                                else none
                            | [] => none
                          else none
                      | [] => none
                    else none
                | [] => none
              else none
          | [] => none
      else none
  | [] => none

/-- One `\(\s*([^)]+)\s*\)` group of the face regex.  The capture runs
to the first `)`; together with the `.strip()` the Python code applies
to it, the stored value is the stripped text between the parentheses. -/
def parenGroup (cs : List Char) : Option (List Char × List Char) :=
  match cs with
  | c0 :: rest =>
      if c0 = '(' then
        let u := rest.takeWhile (fun c => c != ')')
        if u.isEmpty then none
        else
          match rest.dropWhile (fun c => c != ')') with
          | c1 :: r' => if c1 = ')' then some (u, r') else none
          | [] => none
      else none
  | [] => none

/-- One `\[([^\]]+)\]` group of the face regex. -/
def bracketGroup (cs : List Char) : Option (List Char × List Char) :=
  match cs with
  | c0 :: rest =>
      if c0 = '[' then
        let u := rest.takeWhile (fun c => c != ']')
        if u.isEmpty then none
        else
          match rest.dropWhile (fun c => c != ']') with
          | c1 :: r' => if c1 = ']' then some (u, r') else none
          | [] => none
      else none
  | [] => none

/-- `\s+`: at least one whitespace character, consumed greedily. -/
def spaces1 (cs : List Char) : Option (List Char) :=
  match cs with
  | c :: _ => if isPySpace c then some (cs.dropWhile isPySpace) else none
  | [] => none

/-- `(\S+)`: a nonempty maximal run of non-whitespace characters. -/
def token1 (cs : List Char) : Option (List Char × List Char) :=
  let t := cs.takeWhile (fun c => !isPySpace c)
  if t.isEmpty then none else some (t, cs.dropWhile (fun c => !isPySpace c))

/-- `(\d+)`: a nonempty maximal run of ASCII digits. -/
def digits1 (cs : List Char) : Option (List Char × List Char) :=
  let t := cs.takeWhile Char.isDigit
  if t.isEmpty then none else some (t, cs.dropWhile Char.isDigit)

/-- The `\(\s*([^)]+)\s*\)\s*\(\s*([^)]+)\s*\)\s*\(\s*([^)]+)\s*\)`
part of the face regex: the three plane-point groups, separated by
optional whitespace. -/
def faceGroups3 (cs : List Char) :
    Option ((List Char × List Char × List Char) × List Char) :=
  (parenGroup cs).bind fun g1 =>
  (parenGroup (g1.2.dropWhile isPySpace)).bind fun g2 =>
  (parenGroup (g2.2.dropWhile isPySpace)).map fun g3 =>
  ((g1.1, g2.1, g3.1), g3.2)

/-- `\s+(\S+)`: the material token. -/
def faceMat (cs : List Char) : Option (List Char × List Char) :=
  (spaces1 cs).bind fun r => token1 r

/-- `\s+\[([^\]]+)\]`: one axis group. -/
def faceBracket (cs : List Char) : Option (List Char × List Char) :=
  (spaces1 cs).bind fun r => bracketGroup r

/-- `\s+(\d+)`: one trailing integer. -/
def faceDigits (cs : List Char) : Option (List Char × List Char) :=
  (spaces1 cs).bind fun r => digits1 r

/-- The face regex of `parse_map_file`, including the `.strip()` calls
applied to the captures when the face dictionary is built:

`\(\s*([^)]+)\s*\)\s*\(\s*([^)]+)\s*\)\s*\(\s*([^)]+)\s*\)\s+(\S+)`
`\s+\[([^\]]+)\]\s+\[([^\]]+)\]\s+(\d+)\s+(\d+)\s+(\d+)` -/
def faceRegex (cs : List Char) : Option RawFace :=
  (faceGroups3 cs).bind fun gs =>
  (faceMat gs.2).bind fun gm =>
  (faceBracket gm.2).bind fun gu =>
  (faceBracket gu.2).bind fun gv =>
  (faceDigits gv.2).bind fun gr =>
  (faceDigits gr.2).bind fun gx =>
  (faceDigits gx.2).map fun gy =>
  { p1 := String.mk (pyStripList gs.1.1), p2 := String.mk (pyStripList gs.1.2.1),
    p3 := String.mk (pyStripList gs.1.2.2), material := String.mk gm.1,
    uaxis := String.mk (pyStripList gu.1), vaxis := String.mk (pyStripList gv.1),
    rotation := natOfDigits gr.1, scale_x := natOfDigits gx.1,
    scale_y := natOfDigits gy.1 }

/-- Building the face dictionary from the captures: the sentinel
material `__TB_empty` is replaced by the default texture, every other
material is stored unchanged. -/
def faceOf (dt : String) (raw : RawFace) : Face :=
  { p1 := raw.p1, p2 := raw.p2, p3 := raw.p3,
    material := if raw.material = "__TB_empty" then dt else raw.material,
    uaxis := raw.uaxis, vaxis := raw.vaxis,
    rotation := raw.rotation, scale_x := raw.scale_x,
    scale_y := raw.scale_y }

/-- One iteration of the `for line in lines` loop of `parse_map_file`.
`Except.error ()` models the `TypeError` Python would raise at
`current_brush['faces'].append(face)` when `current_brush` is `None`. -/
def stepLine (dt : String) (st : PState) (line : String) : Except Unit PState :=
  if pyStartsWith "// brush" line = true then
    .ok { st with pending_brush := true, brush_count := st.brush_count + 1 }
  else if line = "\x7b" ∧ st.in_brush = false ∧ st.in_worldspawn = false ∧
      st.pending_brush = false then
    .ok { st with in_worldspawn := true }
  else if st.in_worldspawn = true ∧ line = "\x7d" ∧ st.in_brush = false ∧
      st.pending_brush = false then
    .ok { st with in_worldspawn := false }
  else if st.in_worldspawn = true ∧ pyStartsWith "\"" line = true then
    match propRegex line.data with
    | some (k, v) => .ok { st with props := upsert st.props k v }
    | none => .ok st
  else if st.pending_brush = true ∧ line = "\x7b" then
    .ok { st with in_brush := true, current_brush := some ⟨[]⟩,
                  brace_depth := 1, pending_brush := false }
  else if st.pending_brush = true then
    .ok st
  else if st.in_brush = true then
    if line = "\x7b" then
      .ok { st with brace_depth := st.brace_depth + 1 }
    else if line = "\x7d" then
      let d := st.brace_depth - 1
      if d = 0 then
        .ok { st with
              brace_depth := d
              in_brush := false
              brushes := st.brushes ++
                (match st.current_brush with
                 | some b => [b]
                 | none => [])
              current_brush := none }
      else .ok { st with brace_depth := d }
    else if pyStartsWith "(" line = true then
      match faceRegex line.data with
      | some raw =>
          match st.current_brush with
          | some b =>
              .ok { st with
                    current_brush := some ⟨b.faces ++ [faceOf dt raw]⟩
                    face_count := st.face_count + 1
                    material_replacements := st.material_replacements +
                      (if raw.material = "__TB_empty" then 1 else 0) }
          | none => .error ()
      | none => .ok st
    else .ok st
  else .ok st

/-- One iteration of the loop on the raw line: Python strips the line
first (`line = line.strip()`) and then dispatches on it. -/
def step (dt : String) (st : PState) (rawLine : String) : Except Unit PState :=
  stepLine dt st (pyStrip rawLine)

/-- Folding `step` over the remaining lines. -/
def stepLines (dt : String) : PState → List String → Except Unit PState
  | st, [] => .ok st
  | st, l :: ls =>
      match step dt st l with
      | .ok st' => stepLines dt st' ls
      | .error e => .error e

/-- The state of the loop's local variables at entry of
`parse_map_file`, on a converter holding the persistent fields. -/
def initPState (c : Converter) : PState :=
  { props := c.worldspawn_properties, brushes := c.brushes,
    in_worldspawn := false, in_brush := false, current_brush := none,
    brace_depth := 0, pending_brush := false, brush_count := 0,
    face_count := 0, material_replacements := 0 }

/-- `parse_map_file`: runs the loop over `map_content.split('\n')` and
returns the updated converter together with the statistics
dictionary. -/
def parse_map_file (c : Converter) (map_content : String) :
    Except Unit (Converter × Stats) :=
  match stepLines c.default_texture (initPState c) (splitLines map_content) with
  | .ok st =>
      .ok ({ worldspawn_properties := st.props, brushes := st.brushes,
             default_texture := c.default_texture },
           { brushes_found := st.brush_count,
             brushes_processed := st.brushes.length,
             faces_processed := st.face_count,
             material_replacements := st.material_replacements })
  | .error e => .error e

/-- The nine lines of one `side` block emitted by `generate_vmf`. -/
def sideLines (side_id : Nat) (f : Face) : List String :=
  ["\t\tside",
   "\t\t\x7b",
   "\t\t\t\"id\" \"" ++ toString side_id ++ "\"",
   "\t\t\t\"plane\" \"(" ++ f.p1 ++ ") (" ++ f.p2 ++ ") (" ++ f.p3 ++ ")\"",
   "\t\t\t\"material\" \"" ++ f.material ++ "\"",
   "\t\t\t\"uaxis\" \"[" ++ f.uaxis ++ "] 0.25\"",
   "\t\t\t\"vaxis\" \"[" ++ f.vaxis ++ "] 0.25\"",
   "\t\t\t\"lightmapscale\" \"16\"",
   "\t\t\x7d"]

/-- The inner `for face in brush['faces']` loop: emits the side blocks
and returns the advanced `side_id` counter. -/
def facesLines (faces : List Face) (side_id : Nat) : List String × Nat :=
  match faces with
  | [] => ([], side_id)
  | f :: rest =>
      (sideLines side_id f ++ (facesLines rest (side_id + 1)).1,
       (facesLines rest (side_id + 1)).2)

/-- The outer `for brush in self.brushes` loop of `generate_vmf`. -/
def solidLines (brushes : List Brush) (solid_id side_id : Nat) : List String :=
  match brushes with
  | [] => []
  | b :: rest =>
      (["\tsolid", "\t\x7b",
        "\t\t\"id\" \"" ++ toString solid_id ++ "\""] ++
        (facesLines b.faces side_id).1 ++ ["\t\x7d"])
        ++ solidLines rest (solid_id + 1) (facesLines b.faces side_id).2

/-- The `vmf_lines` list built by `generate_vmf`. -/
def generateVmfLines (c : Converter) : List String :=
  ["world", "\x7b", "\t\"id\" \"0\""] ++
  c.worldspawn_properties.map
    (fun kv => "\t\"" ++ kv.1 ++ "\" \"" ++ kv.2 ++ "\"") ++
  solidLines c.brushes 1 2 ++ ["\x7d"]

/-- `generate_vmf`: the emitted lines joined with `'\n'`. -/
def generate_vmf (c : Converter) : String :=
  String.intercalate "\n" (generateVmfLines c)

/-! ### Properties of the ordered-dictionary upsert -/

theorem upsert_keys (m : List (String × String)) (k v : String) :
    (upsert m k v).map Prod.fst =
      if k ∈ m.map Prod.fst then m.map Prod.fst
      else m.map Prod.fst ++ [k] := by
  induction m with
  | nil => simp [upsert]
  | cons p rest ih =>
      obtain ⟨k', v'⟩ := p
      by_cases hk : k' = k
      · subst hk
        simp [upsert]
      · simp only [upsert, if_neg hk, List.map_cons, ih]
        by_cases hmem : k ∈ rest.map Prod.fst
      <;> simp [hmem, Ne.symm hk]

theorem upsert_lookup (m : List (String × String)) (k v : String) :
    (upsert m k v).lookup k = some v := by
  induction m with
  | nil => simp [upsert, List.lookup]
  | cons p rest ih =>
      obtain ⟨k', v'⟩ := p
      by_cases hk : k' = k
      · subst hk; simp [upsert, List.lookup]
      · have hne : (k == k') = false := by
          simp only [beq_eq_false_iff_ne]
          exact fun h => hk h.symm
        simp [upsert, hk, List.lookup, ih, hne]

theorem upsert_upsert (m : List (String × String)) (k v v' : String) :
    upsert (upsert m k v) k v' = upsert m k v' := by
  induction m with
  | nil => simp [upsert]
  | cons p rest ih =>
      obtain ⟨k', v''⟩ := p
      by_cases hk : k' = k
      · subst hk; simp [upsert]
      · simp [upsert, hk, ih]

theorem upsert_keys_mono (m : List (String × String)) (k v a : String)
    (h : a ∈ m.map Prod.fst) : a ∈ (upsert m k v).map Prod.fst := by
  rw [upsert_keys]
  by_cases hmem : k ∈ m.map Prod.fst <;> simp [hmem, h]

/-! ### Invariants of a single parser step -/

/-- `1` when the loop is committed to a brush that has not yet been
appended (either waiting for its opening brace or inside it). -/
def bump (st : PState) : Nat :=
  if st.in_brush = true ∨ st.pending_brush = true then 1 else 0

/-- Branch 1 of `stepLine`: a `// brush` marker line. -/
theorem stepLine_marker (dt : String) (st : PState) (line : String)
    (hA : pyStartsWith "// brush" line = true) :
    stepLine dt st line =
      .ok { st with pending_brush := true,
                    brush_count := st.brush_count + 1 } := by
  unfold stepLine
  rw [if_pos hA]

/-- Branch 2 of `stepLine`: a `{` opening the worldspawn entity. -/
theorem stepLine_ws_open (dt : String) (st : PState) (line : String)
    (hA : ¬ pyStartsWith "// brush" line = true)
    (hB : line = "\x7b" ∧ st.in_brush = false ∧ st.in_worldspawn = false ∧
      st.pending_brush = false) :
    stepLine dt st line = .ok { st with in_worldspawn := true } := by
  unfold stepLine
  rw [if_neg hA, if_pos hB]

/-- Branch 3 of `stepLine`: a `}` closing the worldspawn entity. -/
theorem stepLine_ws_close (dt : String) (st : PState) (line : String)
    (hA : ¬ pyStartsWith "// brush" line = true)
    (hB : ¬ (line = "\x7b" ∧ st.in_brush = false ∧ st.in_worldspawn = false ∧
      st.pending_brush = false))
    (hC : st.in_worldspawn = true ∧ line = "\x7d" ∧ st.in_brush = false ∧
      st.pending_brush = false) :
    stepLine dt st line = .ok { st with in_worldspawn := false } := by
  unfold stepLine
  rw [if_neg hA, if_neg hB, if_pos hC]

/-- Branch 4 of `stepLine`: a quoted line inside worldspawn, upserted
when it matches the property regex. -/
theorem stepLine_prop (dt : String) (st : PState) (line : String)
    (hA : ¬ pyStartsWith "// brush" line = true)
    (hB : ¬ (line = "\x7b" ∧ st.in_brush = false ∧ st.in_worldspawn = false ∧
      st.pending_brush = false))
    (hC : ¬ (st.in_worldspawn = true ∧ line = "\x7d" ∧ st.in_brush = false ∧
      st.pending_brush = false))
    (hD : st.in_worldspawn = true ∧ pyStartsWith "\"" line = true) :
    stepLine dt st line =
      match propRegex line.data with
      | some (k, v) => .ok { st with props := upsert st.props k v }
      | none => .ok st := by
  unfold stepLine
  rw [if_neg hA, if_neg hB, if_neg hC, if_pos hD]

/-- Branch 5 of `stepLine`: the `{` opening a pending brush. -/
theorem stepLine_open (dt : String) (st : PState) (line : String)
    (hA : ¬ pyStartsWith "// brush" line = true)
    (hB : ¬ (line = "\x7b" ∧ st.in_brush = false ∧ st.in_worldspawn = false ∧
      st.pending_brush = false))
    (hC : ¬ (st.in_worldspawn = true ∧ line = "\x7d" ∧ st.in_brush = false ∧
      st.pending_brush = false))
    (hD : ¬ (st.in_worldspawn = true ∧ pyStartsWith "\"" line = true))
    (hE : st.pending_brush = true ∧ line = "\x7b") :
    stepLine dt st line =
      .ok { st with in_brush := true, current_brush := some ⟨[]⟩,
                    brace_depth := 1, pending_brush := false } := by
  unfold stepLine
  rw [if_neg hA, if_neg hB, if_neg hC, if_neg hD, if_pos hE]

/-- Branch 6 of `stepLine`: any other line while a brush open is
pending is skipped. -/
theorem stepLine_pending (dt : String) (st : PState) (line : String)
    (hA : ¬ pyStartsWith "// brush" line = true)
    (hB : ¬ (line = "\x7b" ∧ st.in_brush = false ∧ st.in_worldspawn = false ∧
      st.pending_brush = false))
    (hC : ¬ (st.in_worldspawn = true ∧ line = "\x7d" ∧ st.in_brush = false ∧
      st.pending_brush = false))
    (hD : ¬ (st.in_worldspawn = true ∧ pyStartsWith "\"" line = true))
    (hE : ¬ (st.pending_brush = true ∧ line = "\x7b"))
    (hF : st.pending_brush = true) :
    stepLine dt st line = .ok st := by
  unfold stepLine
  rw [if_neg hA, if_neg hB, if_neg hC, if_neg hD, if_neg hE, if_pos hF]

/-- Branch 7 of `stepLine`: the brush-body dispatch. -/
theorem stepLine_brush (dt : String) (st : PState) (line : String)
    (hA : ¬ pyStartsWith "// brush" line = true)
    (hB : ¬ (line = "\x7b" ∧ st.in_brush = false ∧ st.in_worldspawn = false ∧
      st.pending_brush = false))
    (hC : ¬ (st.in_worldspawn = true ∧ line = "\x7d" ∧ st.in_brush = false ∧
      st.pending_brush = false))
    (hD : ¬ (st.in_worldspawn = true ∧ pyStartsWith "\"" line = true))
    (hE : ¬ (st.pending_brush = true ∧ line = "\x7b"))
    (hF : ¬ st.pending_brush = true)
    (hG : st.in_brush = true) :
    stepLine dt st line =
      (if line = "\x7b" then
        .ok { st with brace_depth := st.brace_depth + 1 }
      else if line = "\x7d" then
        if st.brace_depth - 1 = 0 then
          .ok { st with
                brace_depth := st.brace_depth - 1
                in_brush := false
                brushes := st.brushes ++
                  (match st.current_brush with
                   | some b => [b]
                   | none => [])
                current_brush := none }
        else .ok { st with brace_depth := st.brace_depth - 1 }
      else if pyStartsWith "(" line = true then
        match faceRegex line.data with
        | some raw =>
            match st.current_brush with
            | some b =>
                .ok { st with
                      current_brush := some ⟨b.faces ++ [faceOf dt raw]⟩
                      face_count := st.face_count + 1
                      material_replacements := st.material_replacements +
                        (if raw.material = "__TB_empty" then 1 else 0) }
            | none => .error ()
        | none => .ok st
      else .ok st) := by
  unfold stepLine
  rw [if_neg hA, if_neg hB, if_neg hC, if_neg hD, if_neg hE, if_neg hF,
    if_pos hG]

/-- Fallthrough of `stepLine`: outside everything, a line that matches
no branch leaves the state unchanged. -/
theorem stepLine_outside (dt : String) (st : PState) (line : String)
    (hA : ¬ pyStartsWith "// brush" line = true)
    (hB : ¬ (line = "\x7b" ∧ st.in_brush = false ∧ st.in_worldspawn = false ∧
      st.pending_brush = false))
    (hC : ¬ (st.in_worldspawn = true ∧ line = "\x7d" ∧ st.in_brush = false ∧
      st.pending_brush = false))
    (hD : ¬ (st.in_worldspawn = true ∧ pyStartsWith "\"" line = true))
    (hE : ¬ (st.pending_brush = true ∧ line = "\x7b"))
    (hF : ¬ st.pending_brush = true)
    (hG : ¬ st.in_brush = true) :
    stepLine dt st line = .ok st := by
  unfold stepLine
  rw [if_neg hA, if_neg hB, if_neg hC, if_neg hD, if_neg hE, if_neg hF,
    if_neg hG]

theorem bump_le_one (st : PState) : bump st ≤ 1 := by
  unfold bump
  split_ifs <;> omega

/-- The conjunction of guarantees `step_main` makes about any single
successful (or to-be-shown-successful) step. -/
def StepOut (st st' : PState) : Prop :=
  (st'.in_brush = true → st'.current_brush ≠ none) ∧
  st'.brushes.length + bump st' + st.brush_count ≤
    st.brushes.length + bump st + st'.brush_count ∧
  st.face_count ≤ st'.face_count ∧
  st.brush_count ≤ st'.brush_count ∧
  (∃ D, st'.brushes = st.brushes ++ D) ∧
  (∀ a, a ∈ st.props.map Prod.fst → a ∈ st'.props.map Prod.fst)

theorem stepOut_refl (st : PState)
    (hsafe : st.in_brush = true → st.current_brush ≠ none) :
    StepOut st st :=
  ⟨hsafe, le_refl _, le_refl _, le_refl _, ⟨[], by simp⟩, fun _ ha => ha⟩

/-- Everything a single loop iteration guarantees: it never raises
(given the brush-pointer invariant), it preserves that invariant, the
appended-brush count stays below the marker count, the face and marker
counters are monotone, the brush list only grows at its end, and
worldspawn keys are never removed. -/
theorem step_main (dt : String) (st : PState) (l : String)
    (hsafe : st.in_brush = true → st.current_brush ≠ none) :
    ∃ st', step dt st l = .ok st' ∧ StepOut st st' := by
  unfold step
  generalize pyStrip l = s
  by_cases hA : pyStartsWith "// brush" s = true
  · rw [stepLine_marker dt st s hA]
    refine ⟨_, rfl, hsafe, ?_, le_refl _, by dsimp only; omega,
      ⟨[], by simp⟩, fun a ha => ha⟩
    have h1 : bump { st with
        pending_brush := true
        brush_count := st.brush_count + 1 } = 1 := by
      unfold bump
      simp
    rw [h1]
    dsimp only
    have := bump_le_one st
    omega
  by_cases hB : s = "\x7b" ∧ st.in_brush = false ∧ st.in_worldspawn = false ∧
      st.pending_brush = false
  · rw [stepLine_ws_open dt st s hA hB]
    refine ⟨_, rfl, hsafe, ?_, le_refl _, le_refl _, ⟨[], by simp⟩,
      fun a ha => ha⟩
    have h1 : bump { st with in_worldspawn := true } = bump st := by
      unfold bump
      rfl
    rw [h1]
  by_cases hC : st.in_worldspawn = true ∧ s = "\x7d" ∧ st.in_brush = false ∧
      st.pending_brush = false
  · rw [stepLine_ws_close dt st s hA hB hC]
    refine ⟨_, rfl, hsafe, ?_, le_refl _, le_refl _, ⟨[], by simp⟩,
      fun a ha => ha⟩
    have h1 : bump { st with in_worldspawn := false } = bump st := by
      unfold bump
      rfl
    rw [h1]
  by_cases hD : st.in_worldspawn = true ∧ pyStartsWith "\"" s = true
  · rw [stepLine_prop dt st s hA hB hC hD]
    rcases hp : propRegex s.data with _ | ⟨k, w⟩
    · exact ⟨st, rfl, stepOut_refl st hsafe⟩
    · refine ⟨_, rfl, hsafe, ?_, le_refl _, le_refl _, ⟨[], by simp⟩,
        fun a ha => upsert_keys_mono _ _ _ _ ha⟩
      have h1 : bump { st with props := upsert st.props k w } = bump st := by
        unfold bump
        rfl
      rw [h1]
  by_cases hE : st.pending_brush = true ∧ s = "\x7b"
  · rw [stepLine_open dt st s hA hB hC hD hE]
    refine ⟨_, rfl, by simp, ?_, le_refl _, le_refl _, ⟨[], by simp⟩,
      fun a ha => ha⟩
    have h1 : bump { st with
        in_brush := true
        current_brush := some ⟨[]⟩
        brace_depth := 1
        pending_brush := false } = 1 := by
      unfold bump
      simp
    have h2 : bump st = 1 := by
      unfold bump
      simp [hE.1]
    rw [h1, h2]
  by_cases hF : st.pending_brush = true
  · rw [stepLine_pending dt st s hA hB hC hD hE hF]
    exact ⟨st, rfl, stepOut_refl st hsafe⟩
  by_cases hG : st.in_brush = true
  · rw [stepLine_brush dt st s hA hB hC hD hE hF hG]
    have hbump : bump st = 1 := by
      unfold bump
      simp [hG]
    by_cases h7 : s = "\x7b"
    · rw [if_pos h7]
      refine ⟨_, rfl, by simpa using hsafe, ?_, le_refl _, le_refl _,
        ⟨[], by simp⟩, fun a ha => ha⟩
      have h1 : bump { st with brace_depth := st.brace_depth + 1 } =
          bump st := by
        unfold bump
        rfl
      rw [h1]
    rw [if_neg h7]
    by_cases h8 : s = "\x7d"
    · rw [if_pos h8]
      by_cases h9 : st.brace_depth - 1 = 0
      · rw [if_pos h9]
        have hpf : st.pending_brush = false := by
          revert hF
          cases st.pending_brush <;> simp
        rcases hcb : st.current_brush with _ | b
        · refine ⟨_, rfl, by simp, ?_, le_refl _, le_refl _,
            ⟨[], by simp⟩, fun a ha => ha⟩
          unfold bump
          dsimp only
          simp [hpf, hG]
        · refine ⟨_, rfl, by simp, ?_, le_refl _, le_refl _,
            ⟨[b], by simp⟩, fun a ha => ha⟩
          unfold bump
          dsimp only
          simp [hpf, hG]
      · rw [if_neg h9]
        refine ⟨_, rfl, by simpa using hsafe, ?_, le_refl _, le_refl _,
          ⟨[], by simp⟩, fun a ha => ha⟩
        have h1 : bump { st with brace_depth := st.brace_depth - 1 } =
            bump st := by
          unfold bump
          rfl
        rw [h1]
    rw [if_neg h8]
    by_cases h10 : pyStartsWith "(" s = true
    · rw [if_pos h10]
      rcases hf : faceRegex s.data with _ | raw
      · exact ⟨st, rfl, stepOut_refl st hsafe⟩
      · rcases hcb : st.current_brush with _ | b
        · exact absurd hcb (hsafe hG)
        · refine ⟨_, rfl, by simp, ?_, by dsimp only; omega, le_refl _,
            ⟨[], by simp⟩, fun a ha => ha⟩
          have h1 : bump { st with
              current_brush := some ⟨b.faces ++ [faceOf dt raw]⟩
              face_count := st.face_count + 1
              material_replacements := st.material_replacements +
                (if raw.material = "__TB_empty" then 1 else 0) } =
              bump st := by
            unfold bump
            rfl
          rw [h1]
    · rw [if_neg h10]
      exact ⟨st, rfl, stepOut_refl st hsafe⟩
  exact ⟨st, by rw [stepLine_outside dt st s hA hB hC hD hE hF hG],
    stepOut_refl st hsafe⟩

theorem stepOut_trans (a b c : PState) (h1 : StepOut a b) (h2 : StepOut b c) :
    StepOut a c := by
  obtain ⟨s1, i1, f1, n1, ⟨D1, e1⟩, k1⟩ := h1
  obtain ⟨s2, i2, f2, n2, ⟨D2, e2⟩, k2⟩ := h2
  exact ⟨s2, by omega, le_trans f1 f2, le_trans n1 n2,
    ⟨D1 ++ D2, by rw [e2, e1, List.append_assoc]⟩,
    fun a ha => k2 a (k1 a ha)⟩

/-- The guarantees of `step_main`, folded over a whole line list. -/
theorem run_main (dt : String) : ∀ (ls : List String) (st : PState),
    (st.in_brush = true → st.current_brush ≠ none) →
    ∃ st', stepLines dt st ls = .ok st' ∧ StepOut st st' := by
  intro ls
  induction ls with
  | nil => exact fun st h => ⟨st, rfl, stepOut_refl st h⟩
  | cons l ls ih =>
      intro st h
      obtain ⟨st1, h1, hout1⟩ := step_main dt st l h
      obtain ⟨st2, h2, hout2⟩ := ih st1 hout1.1
      refine ⟨st2, ?_, stepOut_trans st st1 st2 hout1 hout2⟩
      unfold stepLines
      rw [h1]
      exact h2

/-- `parse_map_file` always produces a result: the final loop state
exists and satisfies the accumulated invariants. -/
theorem parse_run (c : Converter) (content : String) :
    ∃ st', stepLines c.default_texture (initPState c)
        (splitLines content) = .ok st' ∧
      parse_map_file c content =
        .ok ({ worldspawn_properties := st'.props, brushes := st'.brushes,
               default_texture := c.default_texture },
             { brushes_found := st'.brush_count,
               brushes_processed := st'.brushes.length,
               faces_processed := st'.face_count,
               material_replacements := st'.material_replacements }) ∧
      StepOut (initPState c) st' := by
  obtain ⟨st', h1, h2⟩ := run_main c.default_texture (splitLines content)
    (initPState c) (by simp [initPState])
  refine ⟨st', h1, ?_, h2⟩
  unfold parse_map_file
  rw [h1]

/-- C8: for every converter state and every input string,
`parse_map_file` terminates normally without raising an exception:
malformed lines are skipped, the current brush is non-null whenever the
parser is inside a brush (so the face append never dereferences
`None`), and a brush still open at end-of-input is simply not part of
the returned data. -/
theorem c8_parse_total (c : Converter) (content : String) :
    ∃ out, parse_map_file c content = Except.ok out := by
  obtain ⟨st', _, h2, _⟩ := parse_run c content
  exact ⟨_, h2⟩

/-- C5: on a fresh converter, `brushes_processed` equals the number of
brushes accumulated in the converter (those whose brace nesting
closed), and never exceeds `brushes_found`, the number of `// brush`
marker lines. -/
theorem c5_brushes_processed_le_found (dt content : String) :
    ∃ conv stats,
      parse_map_file (mkConverter dt) content = Except.ok (conv, stats) ∧
      stats.brushes_processed = conv.brushes.length ∧
      stats.brushes_processed ≤ stats.brushes_found := by
  obtain ⟨st', h1, h2, hsafe, hineq, hrest⟩ := parse_run (mkConverter dt) content
  refine ⟨_, _, h2, rfl, ?_⟩
  have h0 : bump (initPState (mkConverter dt)) = 0 := by
    unfold bump initPState
    simp
  rw [h0] at hineq
  simp only [initPState, mkConverter, List.length_nil] at hineq
  dsimp only
  omega

/-! ### Serializer: identifier assignment and passthrough -/

/-- The number of faces of the first `i` brushes: how far the shared
side counter has advanced when brush `i` is reached. -/
def facesBefore (bs : List Brush) (i : Nat) : Nat :=
  ((bs.take i).map (fun b => b.faces.length)).sum

theorem facesLines_snd (fs : List Face) (sid : Nat) :
    (facesLines fs sid).2 = sid + fs.length := by
  induction fs generalizing sid with
  | nil => simp [facesLines]
  | cons f rest ih =>
      simp only [facesLines, ih, List.length_cons]
      omega

theorem seg_left (A : List String) {l m : List String}
    (h : ∃ pre post, l = pre ++ m ++ post) :
    ∃ pre post, A ++ l = pre ++ m ++ post := by
  obtain ⟨pre, post, hh⟩ := h
  exact ⟨A ++ pre, post, by rw [hh]; simp [List.append_assoc]⟩

theorem seg_right (B : List String) {l m : List String}
    (h : ∃ pre post, l = pre ++ m ++ post) :
    ∃ pre post, l ++ B = pre ++ m ++ post := by
  obtain ⟨pre, post, hh⟩ := h
  exact ⟨pre, post ++ B, by rw [hh]; simp [List.append_assoc]⟩

theorem facesLines_get (fs : List Face) (sid j : Nat) (hj : j < fs.length) :
    ∃ pre post, (facesLines fs sid).1 =
      pre ++ sideLines (sid + j) (fs.get ⟨j, hj⟩) ++ post := by
  induction fs generalizing sid j with
  | nil => simp at hj
  | cons f rest ih =>
      cases j with
      | zero =>
          exact ⟨[], (facesLines rest (sid + 1)).1, by simp [facesLines]⟩
      | succ j =>
          obtain ⟨pre, post, h⟩ := ih (sid + 1) j (by simpa using hj)
          refine ⟨sideLines sid f ++ pre, post, ?_⟩
          have hadd : sid + 1 + j = sid + (j + 1) := by omega
          rw [hadd] at h
          simp [facesLines, h]

theorem solidLines_get (bs : List Brush) (n sid i : Nat) (hi : i < bs.length) :
    ∃ pre post, solidLines bs n sid =
      pre ++ (["\tsolid", "\t\x7b",
        "\t\t\"id\" \"" ++ toString (n + i) ++ "\""] ++
        (facesLines (bs.get ⟨i, hi⟩).faces (sid + facesBefore bs i)).1 ++
        ["\t\x7d"]) ++ post := by
  induction bs generalizing n sid i with
  | nil => simp at hi
  | cons b rest ih =>
      cases i with
      | zero =>
          refine ⟨[], solidLines rest (n + 1) (facesLines b.faces sid).2, ?_⟩
          simp [solidLines, facesBefore]
      | succ i =>
          obtain ⟨pre, post, h⟩ :=
            ih (n + 1) (facesLines b.faces sid).2 i (by simpa using hi)
          refine ⟨(["\tsolid", "\t\x7b",
            "\t\t\"id\" \"" ++ toString n ++ "\""] ++
            (facesLines b.faces sid).1 ++ ["\t\x7d"]) ++ pre, post, ?_⟩
          have h1 : n + 1 + i = n + (i + 1) := by omega
          have h2 : (facesLines b.faces sid).2 + facesBefore rest i =
              sid + facesBefore (b :: rest) (i + 1) := by
            rw [facesLines_snd]
            unfold facesBefore
            simp only [List.take_succ_cons, List.map_cons, List.sum_cons]
            omega
          rw [h1, h2] at h
          simp only [solidLines, List.get_cons_succ]
          rw [h]
          simp [List.append_assoc]

/-- C3: serialization assigns solid id `1 + i` to the `i`-th brush and
side id `2 + (number of faces of earlier brushes) + j` to the `j`-th
face of the `i`-th brush: solid ids count up from 1 one per brush, and
side ids come from a single counter starting at 2 shared across the
whole document, never reset between brushes. -/
theorem c3_identifier_assignment (c : Converter) (i j : Nat)
    (hi : i < c.brushes.length)
    (hj : j < (c.brushes.get ⟨i, hi⟩).faces.length) :
    (∃ pre post, generateVmfLines c =
      pre ++ ["\tsolid", "\t\x7b",
        "\t\t\"id\" \"" ++ toString (1 + i) ++ "\""] ++ post) ∧
    (∃ pre post, generateVmfLines c =
      pre ++ sideLines (2 + facesBefore c.brushes i + j)
        ((c.brushes.get ⟨i, hi⟩).faces.get ⟨j, hj⟩) ++ post) := by
  obtain ⟨pre, post, h⟩ := solidLines_get c.brushes 1 2 i hi
  have hgen : generateVmfLines c =
      ["world", "\x7b", "\t\"id\" \"0\""] ++
      (c.worldspawn_properties.map
        (fun kv => "\t\"" ++ kv.1 ++ "\" \"" ++ kv.2 ++ "\"") ++
      (solidLines c.brushes 1 2 ++ ["\x7d"])) := by
    unfold generateVmfLines
    simp [List.append_assoc]
  constructor
  · rw [hgen]
    refine seg_left _ (seg_left _ (seg_right _ ?_))
    rw [h]
    exact seg_right _ (seg_left _
      ⟨[], (facesLines (c.brushes.get ⟨i, hi⟩).faces
        (2 + facesBefore c.brushes i)).1 ++ ["\t\x7d"],
        by simp [List.append_assoc]⟩)
  · obtain ⟨pre2, post2, h2⟩ :=
      facesLines_get (c.brushes.get ⟨i, hi⟩).faces
        (2 + facesBefore c.brushes i) j hj
    rw [hgen]
    refine seg_left _ (seg_left _ (seg_right _ ?_))
    rw [h]
    refine seg_right _ (seg_left _ ?_)
    rw [h2]
    exact seg_right _ (seg_left _ ⟨pre2, post2, by simp [List.append_assoc]⟩)

theorem facesLines_mem (fs : List Face) (f : Face) (x : String)
    (hx : ∀ k, x ∈ sideLines k f) :
    ∀ sid, f ∈ fs → x ∈ (facesLines fs sid).1 := by
  induction fs with
  | nil =>
      intro sid hf
      cases hf
  | cons g rest ih =>
      intro sid hf
      rcases List.mem_cons.mp hf with h | h
      · subst h
        simp only [facesLines, List.mem_append]
        exact Or.inl (hx sid)
      · simp only [facesLines, List.mem_append]
        exact Or.inr (ih (sid + 1) h)

theorem solidLines_mem (bs : List Brush) (b : Brush) (f : Face) (x : String)
    (hx : ∀ k, x ∈ sideLines k f) :
    ∀ n sid, b ∈ bs → f ∈ b.faces → x ∈ solidLines bs n sid := by
  induction bs with
  | nil =>
      intro n sid hb
      cases hb
  | cons g rest ih =>
      intro n sid hb hf
      rcases List.mem_cons.mp hb with h | h
      · subst h
        have hm := facesLines_mem b.faces f x hx sid hf
        simp [solidLines, List.mem_append, hm]
      · have hm := ih (n + 1) (facesLines g.faces sid).2 h hf
        simp [solidLines, List.mem_append, hm]

theorem generateVmfLines_mem (c : Converter) (b : Brush) (f : Face)
    (x : String) (hx : ∀ k, x ∈ sideLines k f)
    (hb : b ∈ c.brushes) (hf : f ∈ b.faces) :
    x ∈ generateVmfLines c := by
  have hm := solidLines_mem c.brushes b f x hx 1 2 hb hf
  simp [generateVmfLines, List.mem_append, hm]

/-- C6: the fields captured on a face line — the three plane points,
a non-sentinel material, and the contents of the two axis groups —
reappear in the serialized output byte-for-byte, only wrapped in the
parentheses/brackets and followed by the fixed `0.25` suffix. -/
theorem c6_passthrough_fields (dt line : String) (raw : RawFace)
    (c : Converter) (b : Brush)
    (_hparse : faceRegex (pyStrip line).data = some raw)
    (hmat : raw.material ≠ "__TB_empty")
    (hb : b ∈ c.brushes) (hf : faceOf dt raw ∈ b.faces) :
    ("\t\t\t\"plane\" \"(" ++ raw.p1 ++ ") (" ++ raw.p2 ++ ") (" ++
      raw.p3 ++ ")\"") ∈ generateVmfLines c ∧
    ("\t\t\t\"material\" \"" ++ raw.material ++ "\"") ∈ generateVmfLines c ∧
    ("\t\t\t\"uaxis\" \"[" ++ raw.uaxis ++ "] 0.25\"") ∈ generateVmfLines c ∧
    ("\t\t\t\"vaxis\" \"[" ++ raw.vaxis ++ "] 0.25\"") ∈ generateVmfLines c := by
  refine ⟨?_, ?_, ?_, ?_⟩ <;>
    refine generateVmfLines_mem c b (faceOf dt raw) _ (fun k => ?_) hb hf <;>
    simp [sideLines, faceOf, hmat]

/-- A face with its unused numeric fields zeroed out. -/
def scrubFace (f : Face) : Face :=
  { f with rotation := 0, scale_x := 0, scale_y := 0 }

/-- A converter with `rotation`, `scale_x` and `scale_y` zeroed on
every face of every brush. -/
def scrubConv (c : Converter) : Converter :=
  { c with brushes := c.brushes.map (fun b => ⟨b.faces.map scrubFace⟩) }

theorem sideLines_scrub (k : Nat) (f : Face) :
    sideLines k (scrubFace f) = sideLines k f := rfl

theorem facesLines_scrub (fs : List Face) (sid : Nat) :
    facesLines (fs.map scrubFace) sid = facesLines fs sid := by
  induction fs generalizing sid with
  | nil => simp [facesLines]
  | cons f rest ih => simp [facesLines, ih, sideLines_scrub]

theorem solidLines_scrub (bs : List Brush) (n sid : Nat) :
    solidLines (bs.map (fun b => ⟨b.faces.map scrubFace⟩)) n sid =
      solidLines bs n sid := by
  induction bs generalizing n sid with
  | nil => simp [solidLines]
  | cons b rest ih => simp [solidLines, ih, facesLines_scrub]

/-- C7: the serialized `uaxis`/`vaxis` lines carry the fixed literal
suffix `0.25` and the `lightmapscale` line the fixed literal `16`, and
the parsed `rotation`, `scale_x` and `scale_y` values do not influence
the output at all (zeroing them all changes nothing). -/
theorem c7_fixed_scale_suffix (c : Converter) :
    generateVmfLines (scrubConv c) = generateVmfLines c ∧
    ∀ b, b ∈ c.brushes → ∀ f, f ∈ b.faces →
      ("\t\t\t\"uaxis\" \"[" ++ f.uaxis ++ "] 0.25\"") ∈ generateVmfLines c ∧
      ("\t\t\t\"vaxis\" \"[" ++ f.vaxis ++ "] 0.25\"") ∈ generateVmfLines c ∧
      ("\t\t\t\"lightmapscale\" \"16\"" : String) ∈ generateVmfLines c := by
  constructor
  · unfold generateVmfLines scrubConv
    simp [solidLines_scrub]
  · intro b hb f hf
    refine ⟨?_, ?_, ?_⟩ <;>
      refine generateVmfLines_mem c b f _ (fun k => ?_) hb hf <;>
      simp [sideLines]

/-! ### Shape facts about stripped lines -/

theorem listStarts_single (c : Char) (cs : List Char)
    (h : listStarts [c] cs = true) : ∃ rest, cs = c :: rest := by
  cases cs with
  | nil => simp [listStarts] at h
  | cons d rest =>
      simp only [listStarts, Bool.and_eq_true, beq_iff_eq] at h
      exact ⟨rest, by rw [h.1]⟩

theorem quote_facts (s : String) (h : pyStartsWith "\"" s = true) :
    pyStartsWith "// brush" s = false ∧ s ≠ "\x7b" ∧ s ≠ "\x7d" := by
  obtain ⟨rest, hdata⟩ := listStarts_single '"' s.data (by
    unfold pyStartsWith at h
    simpa using h)
  obtain ⟨data⟩ := s
  simp only [String.data] at hdata
  subst hdata
  refine ⟨by simp [pyStartsWith, listStarts], ?_, ?_⟩ <;>
    · intro heq
      exact absurd (congrArg String.data heq) (by simp)

theorem paren_facts (s : String) (h : pyStartsWith "(" s = true) :
    pyStartsWith "// brush" s = false ∧ pyStartsWith "\"" s = false ∧
    s ≠ "\x7b" ∧ s ≠ "\x7d" := by
  obtain ⟨rest, hdata⟩ := listStarts_single '(' s.data (by
    unfold pyStartsWith at h
    simpa using h)
  obtain ⟨data⟩ := s
  simp only [String.data] at hdata
  subst hdata
  refine ⟨by simp [pyStartsWith, listStarts],
    by simp [pyStartsWith, listStarts], ?_, ?_⟩ <;>
    · intro heq
      exact absurd (congrArg String.data heq) (by simp)

/-! ### Claim C1: closing a brush, and quoted lines after it -/

/-- C1 as stated is false: after the `}` that closes a brush, the
`in_worldspawn` flag still holds whenever the brush was opened inside
the worldspawn block, so a quoted line right after the closing brace is
upserted with no new `{` in between.  Concretely, on
`{ / // brush 0 / { / } / "k" "v" / }` the property `k` ends up in
`worldspawn_properties`. -/
theorem c1_counterexample :
    parse_map_file (mkConverter "d")
      "\x7b\n// brush 0\n\x7b\n\x7d\n\"k\" \"v\"\n\x7d" =
    Except.ok
      ({ worldspawn_properties := [("k", "v")], brushes := [⟨[]⟩],
         default_texture := "d" },
       { brushes_found := 1, brushes_processed := 1, faces_processed := 0,
         material_replacements := 0 }) := by
  rfl

/-- C1 amended: a line that strips to `}` at brace depth 1 inside a
brush appends the current brush and clears `in_brush` — but leaves
`in_worldspawn` untouched; afterwards a quoted key/value line is
upserted into `worldspawn_properties` exactly when `in_worldspawn` is
still set (which needs no new `{` line — the flag simply persists from
before the brush). -/
theorem c1_brush_close_amended (dt : String) (st : PState) (l : String)
    (b : Brush) (hline : pyStrip l = "\x7d") (hib : st.in_brush = true)
    (hpend : st.pending_brush = false) (hcb : st.current_brush = some b)
    (hd : st.brace_depth = 1) :
    step dt st l = .ok { st with
      in_brush := false
      brace_depth := 0
      brushes := st.brushes ++ [b]
      current_brush := none } ∧
    ∀ (st2 : PState) (l2 : String) (k v : String),
      st2.in_brush = false → st2.pending_brush = false →
      pyStartsWith "\"" (pyStrip l2) = true →
      propRegex (pyStrip l2).data = some (k, v) →
      step dt st2 l2 = .ok { st2 with props :=
        if st2.in_worldspawn = true then upsert st2.props k v
        else st2.props } := by
  constructor
  · unfold step
    rw [hline]
    rw [stepLine_brush dt st "\x7d" (by decide)
      (fun hc => absurd hc.1 (by decide))
      (fun hc => by rw [hib] at hc; exact Bool.noConfusion hc.2.2.1)
      (fun hc => absurd hc.2 (by decide))
      (fun hc => absurd hc.2 (by decide))
      (by simp [hpend]) hib]
    rw [if_neg (by decide), if_pos rfl, if_pos (by rw [hd]; decide)]
    rw [hcb, hd]
    rfl
  · intro st2 l2 k v h1 h2 hq hpr
    obtain ⟨hm, hb1, hb2⟩ := quote_facts _ hq
    unfold step
    by_cases hws : st2.in_worldspawn = true
    · rw [stepLine_prop dt st2 _ (by simp [hm]) (fun hc => hb1 hc.1)
        (fun hc => hb2 hc.2.1) ⟨hws, hq⟩]
      rw [hpr, if_pos hws]
    · rw [stepLine_outside dt st2 _ (by simp [hm]) (fun hc => hb1 hc.1)
        (fun hc => hb2 hc.2.1) (fun hc => hws hc.1)
        (fun hc => hb1 hc.2) (by simp [h2]) (by simp [h1])]
      rw [if_neg hws]

/-- The concrete in-brush state used by witnesses. -/
def stWitness : PState :=
  { props := []
    brushes := []
    in_worldspawn := true
    in_brush := true
    current_brush := some ⟨[]⟩
    brace_depth := 1
    pending_brush := false
    brush_count := 1
    face_count := 0
    material_replacements := 0 }

/-- Witness for `c1_brush_close_amended` at a concrete state. -/
theorem c1_brush_close_amended_witness :
    step "d" stWitness "\x7d" =
      .ok { stWitness with
        in_brush := false
        brace_depth := 0
        brushes := [⟨[]⟩]
        current_brush := none } :=
  (c1_brush_close_amended "d" stWitness "\x7d" ⟨[]⟩ (by decide) rfl rfl rfl
    rfl).1

/-! ### Claim C2: duplicate worldspawn keys -/

/-- C2 as stated is false: a duplicated key keeps the position of its
FIRST occurrence, not the position of the last write.  On the input
with writes `a=1`, `b=2`, `a=3`, the final mapping is
`[a=3, b=2]` — `a` stays in front of `b` although `a`'s last write came
after `b`'s — and the serialized property lines come out in that same
order. -/
theorem c2_counterexample :
    parse_map_file (mkConverter "d")
      "\x7b\n\"a\" \"1\"\n\"b\" \"2\"\n\"a\" \"3\"\n\x7d" =
    Except.ok
      ({ worldspawn_properties := [("a", "3"), ("b", "2")], brushes := [],
         default_texture := "d" },
       { brushes_found := 0, brushes_processed := 0, faces_processed := 0,
         material_replacements := 0 }) ∧
    generateVmfLines
      { worldspawn_properties := [("a", "3"), ("b", "2")], brushes := [],
        default_texture := "d" } =
      ["world", "\x7b", "\t\"id\" \"0\"", "\t\"a\" \"3\"", "\t\"b\" \"2\"",
       "\x7d"] :=
  ⟨rfl, rfl⟩

/-- C2 amended: on duplicate worldspawn keys the last value wins, but
the key's position in the mapping — and hence in the serialized
property order — is the one established by its FIRST insertion: a
later write overwrites in place and appends nothing. -/
theorem c2_last_wins_first_position (m : List (String × String))
    (k v v' : String) :
    upsert (upsert m k v) k v' = upsert m k v' ∧
    (upsert m k v).lookup k = some v ∧
    (upsert m k v).map Prod.fst =
      (if k ∈ m.map Prod.fst then m.map Prod.fst
       else m.map Prod.fst ++ [k]) :=
  ⟨upsert_upsert m k v v', upsert_lookup m k v, upsert_keys m k v⟩

/-! ### Claim C4: sentinel material substitution -/

theorem faceRegex_head (cs : List Char) (raw : RawFace)
    (h : faceRegex cs = some raw) : ∃ rest, cs = '(' :: rest := by
  cases cs with
  | nil => simp [faceRegex, faceGroups3, parenGroup] at h
  | cons c rest =>
      by_cases hc : c = '('
      · exact ⟨rest, by rw [hc]⟩
      · simp [faceRegex, faceGroups3, parenGroup, hc] at h

/-- C4: a parsed face whose raw material token is exactly `__TB_empty`
ends up with the default texture and bumps the substitution counter by
one; any other token is stored unchanged and leaves the counter alone;
and the counter moves only at steps that also parse a face. -/
theorem c4_sentinel_substitution (dt : String) :
    (∀ raw : RawFace, (faceOf dt raw).material =
      (if raw.material = "__TB_empty" then dt else raw.material)) ∧
    (∀ (st : PState) (l : String) (raw : RawFace) (b : Brush),
      faceRegex (pyStrip l).data = some raw →
      st.in_brush = true → st.pending_brush = false →
      st.current_brush = some b →
      step dt st l = .ok { st with
        current_brush := some ⟨b.faces ++ [faceOf dt raw]⟩
        face_count := st.face_count + 1
        material_replacements := st.material_replacements +
          (if raw.material = "__TB_empty" then 1 else 0) }) ∧
    (∀ (st : PState) (l : String) (st' : PState),
      step dt st l = .ok st' → st'.face_count = st.face_count →
      st'.material_replacements = st.material_replacements) := by
  refine ⟨fun raw => rfl, ?_, ?_⟩
  · intro st l raw b hparse hib hpend hcb
    obtain ⟨rest, hhead⟩ := faceRegex_head _ _ hparse
    have hq : pyStartsWith "(" (pyStrip l) = true := by
      unfold pyStartsWith
      rw [hhead]
      simp [listStarts]
    obtain ⟨hm, hqf, hb1, hb2⟩ := paren_facts _ hq
    unfold step
    rw [stepLine_brush dt st _ (by simp [hm]) (fun hc => hb1 hc.1)
      (fun hc => hb2 hc.2.1)
      (fun hc => by rw [hqf] at hc; exact Bool.noConfusion hc.2)
      (fun hc => hb1 hc.2) (by simp [hpend]) hib]
    rw [if_neg hb1, if_neg hb2, if_pos hq, hparse, hcb]
  · intro st l st' h hfc
    unfold step at h
    by_cases hA : pyStartsWith "// brush" (pyStrip l) = true
    · rw [stepLine_marker dt st _ hA] at h
      injection h with h
      subst h
      rfl
    by_cases hB : pyStrip l = "\x7b" ∧ st.in_brush = false ∧
        st.in_worldspawn = false ∧ st.pending_brush = false
    · rw [stepLine_ws_open dt st _ hA hB] at h
      injection h with h
      subst h
      rfl
    by_cases hC : st.in_worldspawn = true ∧ pyStrip l = "\x7d" ∧
        st.in_brush = false ∧ st.pending_brush = false
    · rw [stepLine_ws_close dt st _ hA hB hC] at h
      injection h with h
      subst h
      rfl
    by_cases hD : st.in_worldspawn = true ∧
        pyStartsWith "\"" (pyStrip l) = true
    · rw [stepLine_prop dt st _ hA hB hC hD] at h
      rcases hp : propRegex (pyStrip l).data with _ | ⟨k, v⟩ <;>
        rw [hp] at h <;> injection h with h <;> subst h <;> rfl
    by_cases hE : st.pending_brush = true ∧ pyStrip l = "\x7b"
    · rw [stepLine_open dt st _ hA hB hC hD hE] at h
      injection h with h
      subst h
      rfl
    by_cases hF : st.pending_brush = true
    · rw [stepLine_pending dt st _ hA hB hC hD hE hF] at h
      injection h with h
      subst h
      rfl
    by_cases hG : st.in_brush = true
    · rw [stepLine_brush dt st _ hA hB hC hD hE hF hG] at h
      by_cases h7 : pyStrip l = "\x7b"
      · rw [if_pos h7] at h
        injection h with h
        subst h
        rfl
      rw [if_neg h7] at h
      by_cases h8 : pyStrip l = "\x7d"
      · rw [if_pos h8] at h
        by_cases h9 : st.brace_depth - 1 = 0
        · rw [if_pos h9] at h
          injection h with h
          subst h
          rfl
        · rw [if_neg h9] at h
          injection h with h
          subst h
          rfl
      rw [if_neg h8] at h
      by_cases h10 : pyStartsWith "(" (pyStrip l) = true
      · rw [if_pos h10] at h
        rcases hf : faceRegex (pyStrip l).data with _ | raw
        · rw [hf] at h
          injection h with h
          subst h
          rfl
        · rw [hf] at h
          rcases hcb : st.current_brush with _ | b
          · rw [hcb] at h
            exact Except.noConfusion h
          · rw [hcb] at h
            injection h with h
            subst h
            dsimp only at hfc
            omega
      · rw [if_neg h10] at h
        injection h with h
        subst h
        rfl
    · rw [stepLine_outside dt st _ hA hB hC hD hE hF hG] at h
      injection h with h
      subst h
      rfl

/-- Witness for `c4_sentinel_substitution`: applies the face-step part
at a concrete sentinel face line. -/
theorem c4_sentinel_substitution_witness :
    step "dev/tex" stWitness
      "( 0 0 0 ) ( 0 0 1 ) ( 0 1 0 ) __TB_empty [1 0 0 0] [0 1 0 0] 0 1 1" =
    .ok { stWitness with
      current_brush := some ⟨[
        { p1 := "0 0 0", p2 := "0 0 1", p3 := "0 1 0",
          material := "dev/tex", uaxis := "1 0 0 0", vaxis := "0 1 0 0",
          rotation := 0, scale_x := 1, scale_y := 1 }]⟩
      face_count := 1
      material_replacements := 1 } := by
  have h := (c4_sentinel_substitution "dev/tex").2.1 stWitness
    "( 0 0 0 ) ( 0 0 1 ) ( 0 1 0 ) __TB_empty [1 0 0 0] [0 1 0 0] 0 1 1"
    { p1 := "0 0 0", p2 := "0 0 1", p3 := "0 1 0",
      material := "__TB_empty", uaxis := "1 0 0 0", vaxis := "0 1 0 0",
      rotation := 0, scale_x := 1, scale_y := 1 } ⟨[]⟩
    (by rfl) rfl rfl rfl
  exact h

/-! ### Claim C10: a marker inside an open brush abandons it -/

theorem step_face_mono (dt : String) (st : PState) (l : String)
    (st' : PState) (h : step dt st l = .ok st') :
    st.face_count ≤ st'.face_count := by
  unfold step at h
  by_cases hA : pyStartsWith "// brush" (pyStrip l) = true
  · rw [stepLine_marker dt st _ hA] at h
    injection h with h
    subst h
    exact le_refl _
  by_cases hB : pyStrip l = "\x7b" ∧ st.in_brush = false ∧
      st.in_worldspawn = false ∧ st.pending_brush = false
  · rw [stepLine_ws_open dt st _ hA hB] at h
    injection h with h
    subst h
    exact le_refl _
  by_cases hC : st.in_worldspawn = true ∧ pyStrip l = "\x7d" ∧
      st.in_brush = false ∧ st.pending_brush = false
  · rw [stepLine_ws_close dt st _ hA hB hC] at h
    injection h with h
    subst h
    exact le_refl _
  by_cases hD : st.in_worldspawn = true ∧
      pyStartsWith "\"" (pyStrip l) = true
  · rw [stepLine_prop dt st _ hA hB hC hD] at h
    rcases hp : propRegex (pyStrip l).data with _ | ⟨k, v⟩ <;>
      rw [hp] at h <;> injection h with h <;> subst h <;> exact le_refl _
  by_cases hE : st.pending_brush = true ∧ pyStrip l = "\x7b"
  · rw [stepLine_open dt st _ hA hB hC hD hE] at h
    injection h with h
    subst h
    exact le_refl _
  by_cases hF : st.pending_brush = true
  · rw [stepLine_pending dt st _ hA hB hC hD hE hF] at h
    injection h with h
    subst h
    exact le_refl _
  by_cases hG : st.in_brush = true
  · rw [stepLine_brush dt st _ hA hB hC hD hE hF hG] at h
    by_cases h7 : pyStrip l = "\x7b"
    · rw [if_pos h7] at h
      injection h with h
      subst h
      exact le_refl _
    rw [if_neg h7] at h
    by_cases h8 : pyStrip l = "\x7d"
    · rw [if_pos h8] at h
      by_cases h9 : st.brace_depth - 1 = 0 <;>
        [rw [if_pos h9] at h; rw [if_neg h9] at h] <;>
        injection h with h <;> subst h <;> exact le_refl _
    rw [if_neg h8] at h
    by_cases h10 : pyStartsWith "(" (pyStrip l) = true
    · rw [if_pos h10] at h
      rcases hf : faceRegex (pyStrip l).data with _ | raw
      · rw [hf] at h
        injection h with h
        subst h
        exact le_refl _
      · rw [hf] at h
        rcases hcb : st.current_brush with _ | b
        · rw [hcb] at h
          exact Except.noConfusion h
        · rw [hcb] at h
          injection h with h
          subst h
          dsimp only
          omega
    · rw [if_neg h10] at h
      injection h with h
      subst h
      exact le_refl _
  · rw [stepLine_outside dt st _ hA hB hC hD hE hF hG] at h
    injection h with h
    subst h
    exact le_refl _

theorem stepLines_append (dt : String) (xs ys : List String) :
    ∀ st : PState, stepLines dt st (xs ++ ys) =
      (match stepLines dt st xs with
       | .ok st1 => stepLines dt st1 ys
       | .error e => .error e) := by
  induction xs with
  | nil => intro st; rfl
  | cons l xs ih =>
      intro st
      have hL : stepLines dt st (l :: (xs ++ ys)) =
          (match step dt st l with
           | .ok st1 => stepLines dt st1 (xs ++ ys)
           | .error e => .error e) := rfl
      have hR : stepLines dt st (l :: xs) =
          (match step dt st l with
           | .ok st1 => stepLines dt st1 xs
           | .error e => .error e) := rfl
      rw [List.cons_append, hL, hR]
      rcases hs : step dt st l with e | st1
      · rfl
      · exact ih st1

/-- While a brush open is pending, lines that do not strip to `{` keep
everything but the marker counter and the worldspawn properties
fixed. -/
theorem pending_run (dt : String) (mid : List String) : ∀ st : PState,
    st.pending_brush = true → (∀ l, l ∈ mid → pyStrip l ≠ "\x7b") →
    ∃ st', stepLines dt st mid = .ok st' ∧
      st'.pending_brush = true ∧ st'.in_brush = st.in_brush ∧
      st'.current_brush = st.current_brush ∧
      st'.brace_depth = st.brace_depth ∧ st'.brushes = st.brushes ∧
      st'.face_count = st.face_count ∧
      st.brush_count ≤ st'.brush_count := by
  induction mid with
  | nil =>
      intro st h1 _
      exact ⟨st, rfl, h1, rfl, rfl, rfl, rfl, rfl, le_refl _⟩
  | cons l mid ih =>
      intro st h1 hex
      have hl : pyStrip l ≠ "\x7b" := hex l (by simp)
      have hstep : ∃ st1, step dt st l = .ok st1 ∧
          st1.pending_brush = true ∧ st1.in_brush = st.in_brush ∧
          st1.current_brush = st.current_brush ∧
          st1.brace_depth = st.brace_depth ∧ st1.brushes = st.brushes ∧
          st1.face_count = st.face_count ∧
          st.brush_count ≤ st1.brush_count := by
        unfold step
        by_cases hA : pyStartsWith "// brush" (pyStrip l) = true
        · rw [stepLine_marker dt st _ hA]
          exact ⟨_, rfl, rfl, rfl, rfl, rfl, rfl, rfl,
            by dsimp only; omega⟩
        by_cases hD : st.in_worldspawn = true ∧
            pyStartsWith "\"" (pyStrip l) = true
        · rw [stepLine_prop dt st _ hA
            (fun hc => by rw [h1] at hc; exact Bool.noConfusion hc.2.2.2)
            (fun hc => by rw [h1] at hc; exact Bool.noConfusion hc.2.2.2)
            hD]
          rcases hp : propRegex (pyStrip l).data with _ | ⟨k, v⟩
          · exact ⟨st, rfl, h1, rfl, rfl, rfl, rfl, rfl, le_refl _⟩
          · exact ⟨_, rfl, h1, rfl, rfl, rfl, rfl, rfl, le_refl _⟩
        · rw [stepLine_pending dt st _ hA
            (fun hc => by rw [h1] at hc; exact Bool.noConfusion hc.2.2.2)
            (fun hc => by rw [h1] at hc; exact Bool.noConfusion hc.2.2.2)
            hD (fun hc => hl hc.2) h1]
          exact ⟨st, rfl, h1, rfl, rfl, rfl, rfl, rfl, le_refl _⟩
      obtain ⟨st1, hs1, p1, e1, e2, e3, e4, e5, e6⟩ := hstep
      obtain ⟨st', hrun, q1, q2, q3, q4, q5, q6, q7⟩ :=
        ih st1 p1 (fun x hx => hex x (by simp [hx]))
      refine ⟨st', ?_, q1, by rw [q2, e1], by rw [q3, e2], by rw [q4, e3],
        by rw [q5, e4], by rw [q6, e5], le_trans e6 q7⟩
      show (match step dt st l with
            | .ok s1 => stepLines dt s1 mid
            | .error e => .error e) = _
      rw [hs1]
      exact hrun

/-- C10: a `// brush` marker seen while a brush is still open abandons
that brush — it is never appended, the marker still counts towards
`brushes_found`, and the next `{` starts a fresh empty brush (with the
already-parsed faces still counted in `faces_processed`, which no step
ever decreases). -/
theorem c10_marker_abandons_open_brush (dt : String) (st : PState)
    (m : String) (mid : List String)
    (hm : pyStartsWith "// brush" (pyStrip m) = true)
    (hib : st.in_brush = true)
    (hmid : ∀ l, l ∈ mid → pyStrip l ≠ "\x7b") :
    (∃ st', stepLines dt st (m :: (mid ++ ["\x7b"])) = .ok st' ∧
      st'.brushes = st.brushes ∧
      st'.current_brush = some ⟨[]⟩ ∧
      st'.in_brush = true ∧
      st'.brace_depth = 1 ∧
      st'.pending_brush = false ∧
      st'.face_count = st.face_count ∧
      st.brush_count + 1 ≤ st'.brush_count) ∧
    (∀ (st0 : PState) (l : String) (st1 : PState),
      step dt st0 l = .ok st1 → st0.face_count ≤ st1.face_count) := by
  refine ⟨?_, step_face_mono dt⟩
  have hs1 : step dt st m = .ok { st with
      pending_brush := true
      brush_count := st.brush_count + 1 } := by
    unfold step
    exact stepLine_marker dt st _ hm
  obtain ⟨st2, hrun, q1, q2, q3, q4, q5, q6, q7⟩ :=
    pending_run dt mid { st with
      pending_brush := true
      brush_count := st.brush_count + 1 } rfl hmid
  have hs3 : step dt st2 "\x7b" = .ok { st2 with
      in_brush := true
      current_brush := some ⟨[]⟩
      brace_depth := 1
      pending_brush := false } := by
    unfold step
    exact stepLine_open dt st2 _ (by decide)
      (fun hc => by
        rw [q2] at hc
        exact Bool.noConfusion (hib ▸ hc.2.1))
      (fun hc => absurd hc.2.1 (by decide))
      (fun hc => absurd hc.2 (by decide))
      ⟨q1, by decide⟩
  refine ⟨{ st2 with
      in_brush := true
      current_brush := some ⟨[]⟩
      brace_depth := 1
      pending_brush := false }, ?_, ?_, rfl, rfl, rfl, rfl, ?_, ?_⟩
  · have e1 : stepLines dt st (m :: (mid ++ ["\x7b"])) =
        stepLines dt { st with
          pending_brush := true
          brush_count := st.brush_count + 1 } (mid ++ ["\x7b"]) := by
      show (match step dt st m with
            | .ok s1 => stepLines dt s1 (mid ++ ["\x7b"])
            | .error e => .error e) = _
      rw [hs1]
    rw [e1, stepLines_append dt mid ["\x7b"], hrun]
    show (match step dt st2 "\x7b" with
          | .ok s1 => stepLines dt s1 []
          | .error e => .error e) = _
    rw [hs3]
    rfl
  · show st2.brushes = st.brushes
    exact q5
  · show st2.face_count = st.face_count
    exact q6
  · show st.brush_count + 1 ≤ st2.brush_count
    exact q7

/-- Witness for `c10_marker_abandons_open_brush` at a concrete
in-brush state. -/
theorem c10_marker_abandons_open_brush_witness :
    ∃ st', stepLines "d" stWitness
        ("// brush 1" :: (["junk"] ++ ["\x7b"])) = .ok st' ∧
      st'.brushes = stWitness.brushes ∧
      st'.current_brush = some ⟨[]⟩ ∧
      st'.in_brush = true ∧
      st'.brace_depth = 1 ∧
      st'.pending_brush = false ∧
      st'.face_count = stWitness.face_count ∧
      stWitness.brush_count + 1 ≤ st'.brush_count :=
  (c10_marker_abandons_open_brush "d" stWitness "// brush 1" ["junk"]
    (by decide) rfl (by decide)).1

/-! ### Claim C9: a second `parse_map_file` call accumulates -/

/-- Two loop states that agree on every loop-local field and whose
worldspawn properties may differ, the left one's brush list extending
the right one's by the fixed prefix `C`. -/
def Rel (C : List Brush) (s t : PState) : Prop :=
  s.in_worldspawn = t.in_worldspawn ∧ s.in_brush = t.in_brush ∧
  s.current_brush = t.current_brush ∧ s.brace_depth = t.brace_depth ∧
  s.pending_brush = t.pending_brush ∧ s.brush_count = t.brush_count ∧
  s.face_count = t.face_count ∧
  s.material_replacements = t.material_replacements ∧
  s.brushes = C ++ t.brushes

/-- The parser loop never reads the brush list nor the property map to
decide anything: two related states step to related states. -/
theorem rel_step (dt : String) (C : List Brush) (s t : PState) (l : String)
    (hrel : Rel C s t) :
    (step dt s l = .error () ∧ step dt t l = .error ()) ∨
    (∃ s' t', step dt s l = .ok s' ∧ step dt t l = .ok t' ∧ Rel C s' t') := by
  obtain ⟨h1, h2, h3, h4, h5, h6, h7, h8, h9⟩ := hrel
  unfold step
  by_cases hA : pyStartsWith "// brush" (pyStrip l) = true
  · rw [stepLine_marker dt s _ hA, stepLine_marker dt t _ hA]
    exact Or.inr ⟨_, _, rfl, rfl, h1, h2, h3, h4, rfl,
      (by dsimp only; rw [h6]), h7, h8, h9⟩
  by_cases hB : pyStrip l = "\x7b" ∧ t.in_brush = false ∧
      t.in_worldspawn = false ∧ t.pending_brush = false
  · rw [stepLine_ws_open dt s _ hA ⟨hB.1, by rw [h2]; exact hB.2.1,
      by rw [h1]; exact hB.2.2.1, by rw [h5]; exact hB.2.2.2⟩,
      stepLine_ws_open dt t _ hA hB]
    exact Or.inr ⟨_, _, rfl, rfl, rfl, h2, h3, h4, h5, h6, h7, h8, h9⟩
  have hBs : ¬ (pyStrip l = "\x7b" ∧ s.in_brush = false ∧
      s.in_worldspawn = false ∧ s.pending_brush = false) := by
    rw [h1, h2, h5]
    exact hB
  by_cases hC : t.in_worldspawn = true ∧ pyStrip l = "\x7d" ∧
      t.in_brush = false ∧ t.pending_brush = false
  · rw [stepLine_ws_close dt s _ hA hBs ⟨by rw [h1]; exact hC.1, hC.2.1,
      by rw [h2]; exact hC.2.2.1, by rw [h5]; exact hC.2.2.2⟩,
      stepLine_ws_close dt t _ hA hB hC]
    exact Or.inr ⟨_, _, rfl, rfl, rfl, h2, h3, h4, h5, h6, h7, h8, h9⟩
  have hCs : ¬ (s.in_worldspawn = true ∧ pyStrip l = "\x7d" ∧
      s.in_brush = false ∧ s.pending_brush = false) := by
    rw [h1, h2, h5]
    exact hC
  by_cases hD : t.in_worldspawn = true ∧ pyStartsWith "\"" (pyStrip l) = true
  · rw [stepLine_prop dt s _ hA hBs hCs ⟨by rw [h1]; exact hD.1, hD.2⟩,
      stepLine_prop dt t _ hA hB hC hD]
    rcases hp : propRegex (pyStrip l).data with _ | ⟨k, v⟩
    · exact Or.inr ⟨s, t, rfl, rfl, h1, h2, h3, h4, h5, h6, h7, h8, h9⟩
    · exact Or.inr ⟨_, _, rfl, rfl, h1, h2, h3, h4, h5, h6, h7, h8, h9⟩
  have hDs : ¬ (s.in_worldspawn = true ∧
      pyStartsWith "\"" (pyStrip l) = true) := by
    rw [h1]
    exact hD
  by_cases hE : t.pending_brush = true ∧ pyStrip l = "\x7b"
  · rw [stepLine_open dt s _ hA hBs hCs hDs ⟨by rw [h5]; exact hE.1, hE.2⟩,
      stepLine_open dt t _ hA hB hC hD hE]
    exact Or.inr ⟨_, _, rfl, rfl, h1, rfl, rfl, rfl, rfl, h6, h7, h8, h9⟩
  have hEs : ¬ (s.pending_brush = true ∧ pyStrip l = "\x7b") := by
    rw [h5]
    exact hE
  by_cases hF : t.pending_brush = true
  · rw [stepLine_pending dt s _ hA hBs hCs hDs hEs (by rw [h5]; exact hF),
      stepLine_pending dt t _ hA hB hC hD hE hF]
    exact Or.inr ⟨s, t, rfl, rfl, h1, h2, h3, h4, h5, h6, h7, h8, h9⟩
  have hFs : ¬ s.pending_brush = true := by
    rw [h5]
    exact hF
  by_cases hG : t.in_brush = true
  · rw [stepLine_brush dt s _ hA hBs hCs hDs hEs hFs (by rw [h2]; exact hG),
      stepLine_brush dt t _ hA hB hC hD hE hF hG]
    by_cases h7' : pyStrip l = "\x7b"
    · rw [if_pos h7', if_pos h7']
      exact Or.inr ⟨_, _, rfl, rfl, h1, h2, h3,
        (by dsimp only; rw [h4]), h5, h6, h7, h8, h9⟩
    rw [if_neg h7', if_neg h7']
    by_cases h8' : pyStrip l = "\x7d"
    · rw [if_pos h8', if_pos h8']
      by_cases h9' : t.brace_depth - 1 = 0
      · rw [if_pos (by rw [h4]; exact h9'), if_pos h9', h3]
        rcases hcb : t.current_brush with _ | b
        · exact Or.inr ⟨_, _, rfl, rfl, h1, rfl, rfl,
            (by dsimp only; rw [h4]), h5, h6, h7, h8,
            (by dsimp only; rw [h9, List.append_assoc])⟩
        · exact Or.inr ⟨_, _, rfl, rfl, h1, rfl, rfl,
            (by dsimp only; rw [h4]), h5, h6, h7, h8,
            (by dsimp only; rw [h9, List.append_assoc])⟩
      · rw [if_neg (by rw [h4]; exact h9'), if_neg h9']
        exact Or.inr ⟨_, _, rfl, rfl, h1, h2, h3,
          (by dsimp only; rw [h4]), h5, h6, h7, h8, h9⟩
    rw [if_neg h8', if_neg h8']
    by_cases h10 : pyStartsWith "(" (pyStrip l) = true
    · rw [if_pos h10, if_pos h10]
      rcases hf : faceRegex (pyStrip l).data with _ | raw
      · exact Or.inr ⟨s, t, rfl, rfl, h1, h2, h3, h4, h5, h6, h7, h8, h9⟩
      · rw [h3]
        rcases hcb : t.current_brush with _ | b
        · exact Or.inl ⟨rfl, rfl⟩
        · exact Or.inr ⟨_, _, rfl, rfl, h1, h2, rfl,
            h4, h5, h6, (by dsimp only; rw [h7]),
            (by dsimp only; rw [h8]), h9⟩
    · rw [if_neg h10, if_neg h10]
      exact Or.inr ⟨s, t, rfl, rfl, h1, h2, h3, h4, h5, h6, h7, h8, h9⟩
  · rw [stepLine_outside dt s _ hA hBs hCs hDs hEs hFs
      (by rw [h2]; exact hG), stepLine_outside dt t _ hA hB hC hD hE hF hG]
    exact Or.inr ⟨s, t, rfl, rfl, h1, h2, h3, h4, h5, h6, h7, h8, h9⟩

/-- `rel_step` folded over a line list. -/
theorem rel_run (dt : String) (C : List Brush) (ls : List String) :
    ∀ s t : PState, Rel C s t →
    (stepLines dt s ls = .error () ∧ stepLines dt t ls = .error ()) ∨
    (∃ s' t', stepLines dt s ls = .ok s' ∧ stepLines dt t ls = .ok t' ∧
      Rel C s' t') := by
  induction ls with
  | nil => exact fun s t h => Or.inr ⟨s, t, rfl, rfl, h⟩
  | cons l ls ih =>
      intro s t h
      rcases rel_step dt C s t l h with ⟨e1, e2⟩ | ⟨s1, t1, o1, o2, hrel1⟩
      · left
        constructor
        · show (match step dt s l with
                | .ok st1 => stepLines dt st1 ls
                | .error e => .error e) = _
          rw [e1]
        · show (match step dt t l with
                | .ok st1 => stepLines dt st1 ls
                | .error e => .error e) = _
          rw [e2]
      · have hL : stepLines dt s (l :: ls) = stepLines dt s1 ls := by
          show (match step dt s l with
                | .ok st1 => stepLines dt st1 ls
                | .error e => .error e) = _
          rw [o1]
        have hR : stepLines dt t (l :: ls) = stepLines dt t1 ls := by
          show (match step dt t l with
                | .ok st1 => stepLines dt st1 ls
                | .error e => .error e) = _
          rw [o2]
        rw [hL, hR]
        exact ih s1 t1 hrel1

/-- C9: `parse_map_file` never resets `worldspawn_properties` or
`brushes`: on a second call the new brushes (those the same input
yields from a fresh converter) are appended after the first call's,
existing property keys survive, and the returned `brushes_processed` is
the combined brush count of both calls, not the second call's alone. -/
theorem c9_second_parse_accumulates (dt in1 in2 : String) :
    ∃ (c1 : Converter) (s1 : Stats) (c2 : Converter) (s2 : Stats)
      (cr : Converter) (sr : Stats),
      parse_map_file (mkConverter dt) in1 = .ok (c1, s1) ∧
      parse_map_file c1 in2 = .ok (c2, s2) ∧
      parse_map_file (mkConverter dt) in2 = .ok (cr, sr) ∧
      c2.brushes = c1.brushes ++ cr.brushes ∧
      s2.brushes_processed = c1.brushes.length + cr.brushes.length ∧
      (∀ a, a ∈ c1.worldspawn_properties.map Prod.fst →
        a ∈ c2.worldspawn_properties.map Prod.fst) := by
  obtain ⟨stA, hA1, hA2, houtA⟩ := parse_run (mkConverter dt) in1
  obtain ⟨stB, hB1, hB2, houtB⟩ := parse_run
    { worldspawn_properties := stA.props
      brushes := stA.brushes
      default_texture := (mkConverter dt).default_texture } in2
  obtain ⟨stR, hR1, hR2, houtR⟩ := parse_run (mkConverter dt) in2
  have hrel : Rel stA.brushes
      (initPState
        { worldspawn_properties := stA.props
          brushes := stA.brushes
          default_texture := (mkConverter dt).default_texture })
      (initPState (mkConverter dt)) :=
    ⟨rfl, rfl, rfl, rfl, rfl, rfl, rfl, rfl,
      by simp [initPState, mkConverter]⟩
  rcases rel_run (mkConverter dt).default_texture stA.brushes
      (splitLines in2) _ _ hrel with ⟨e1, e2⟩ | ⟨s', t', o1, o2, hrel'⟩
  · exfalso
    rw [hB1] at e1
    exact Except.noConfusion e1
  · have hsB : stB = s' := by
      have h := hB1.symm.trans o1
      injection h
    have hsR : stR = t' := by
      have h := hR1.symm.trans o2
      injection h
    subst hsB
    subst hsR
    refine ⟨_, _, _, _, _, _, hA2, hB2, hR2, ?_, ?_, ?_⟩
    · exact hrel'.2.2.2.2.2.2.2.2
    · show stB.brushes.length = stA.brushes.length + stR.brushes.length
      rw [hrel'.2.2.2.2.2.2.2.2]
      simp
    · exact houtB.2.2.2.2.2

/-- Witness for `c9_second_parse_accumulates` at concrete inputs. -/
theorem c9_second_parse_accumulates_witness :
    ∃ (c1 : Converter) (s1 : Stats) (c2 : Converter) (s2 : Stats)
      (cr : Converter) (sr : Stats),
      parse_map_file (mkConverter "d")
        "\x7b\n\"a\" \"1\"\n\x7d\n// brush\n\x7b\n\x7d" = .ok (c1, s1) ∧
      parse_map_file c1 "// brush\n\x7b\n\x7d" = .ok (c2, s2) ∧
      parse_map_file (mkConverter "d") "// brush\n\x7b\n\x7d" =
        .ok (cr, sr) ∧
      c2.brushes = c1.brushes ++ cr.brushes ∧
      s2.brushes_processed = c1.brushes.length + cr.brushes.length ∧
      (∀ a, a ∈ c1.worldspawn_properties.map Prod.fst →
        a ∈ c2.worldspawn_properties.map Prod.fst) :=
  c9_second_parse_accumulates "d" "\x7b\n\"a\" \"1\"\n\x7d\n// brush\n\x7b\n\x7d"
    "// brush\n\x7b\n\x7d"

/-! ### Concrete witnesses for the serializer claims -/

/-- A small concrete face used by witnesses. -/
def faceW (n : Nat) : Face :=
  { p1 := "0 0 0", p2 := "0 0 1", p3 := "0 1 0", material := "m",
    uaxis := "1 0 0 0", vaxis := "0 1 0 0", rotation := 0,
    scale_x := n, scale_y := 1 }

/-- A small concrete document used by witnesses: two brushes with one
and two faces. -/
def convW : Converter :=
  { worldspawn_properties := [("a", "1")]
    brushes := [⟨[faceW 0]⟩, ⟨[faceW 1, faceW 2]⟩]
    default_texture := "d" }

/-- Witness for `c3_identifier_assignment`: on `convW`, brush 1 gets
solid id 2, and its face 1 gets side id 4 = 2 + 1 earlier face + 1. -/
theorem c3_identifier_assignment_witness :
    (∃ pre post, generateVmfLines convW =
      pre ++ ["\tsolid", "\t\x7b",
        "\t\t\"id\" \"" ++ toString (1 + 1) ++ "\""] ++ post) ∧
    (∃ pre post, generateVmfLines convW =
      pre ++ sideLines (2 + facesBefore convW.brushes 1 + 1) (faceW 2) ++
        post) :=
  c3_identifier_assignment convW 1 1 (by decide) (by decide)

/-- The raw captures of the concrete face line used by the C6
witness. -/
def rawW : RawFace :=
  { p1 := "0 0 0", p2 := "0 0 1", p3 := "0 1 0", material := "tex/a",
    uaxis := "1 0 0 0", vaxis := "0 1 0 0", rotation := 0,
    scale_x := 1, scale_y := 1 }

/-- A document holding the parsed concrete face. -/
def convW6 : Converter :=
  { worldspawn_properties := []
    brushes := [⟨[faceOf "d" rawW]⟩]
    default_texture := "d" }

/-- Witness for `c6_passthrough_fields` at a concrete face line. -/
theorem c6_passthrough_fields_witness :
    ("\t\t\t\"plane\" \"(" ++ rawW.p1 ++ ") (" ++ rawW.p2 ++ ") (" ++
      rawW.p3 ++ ")\"") ∈ generateVmfLines convW6 ∧
    ("\t\t\t\"material\" \"" ++ rawW.material ++ "\"") ∈
      generateVmfLines convW6 ∧
    ("\t\t\t\"uaxis\" \"[" ++ rawW.uaxis ++ "] 0.25\"") ∈
      generateVmfLines convW6 ∧
    ("\t\t\t\"vaxis\" \"[" ++ rawW.vaxis ++ "] 0.25\"") ∈
      generateVmfLines convW6 :=
  c6_passthrough_fields "d"
    "( 0 0 0 ) ( 0 0 1 ) ( 0 1 0 ) tex/a [1 0 0 0] [0 1 0 0] 0 1 1"
    rawW convW6 ⟨[faceOf "d" rawW]⟩ (by rfl) (by decide) (by decide)
    (by decide)

/-- Witness for `c7_fixed_scale_suffix` at the concrete document. -/
theorem c7_fixed_scale_suffix_witness :
    generateVmfLines (scrubConv convW) = generateVmfLines convW ∧
    ("\t\t\t\"uaxis\" \"[" ++ (faceW 0).uaxis ++ "] 0.25\"") ∈
      generateVmfLines convW ∧
    ("\t\t\t\"lightmapscale\" \"16\"" : String) ∈ generateVmfLines convW := by
  refine ⟨(c7_fixed_scale_suffix convW).1, ?_, ?_⟩
  · exact ((c7_fixed_scale_suffix convW).2 ⟨[faceW 0]⟩ (by decide)
      (faceW 0) (by decide)).1
  · exact ((c7_fixed_scale_suffix convW).2 ⟨[faceW 0]⟩ (by decide)
      (faceW 0) (by decide)).2.2

end Map2Vmf
